import Mathlib

/-!
# Verification of the deadline-manager reconciliation / view engine

Shallow embedding of the task-record engine of this repository
(`src/unnamed/part_004` is the full page variant: sort modes, undo/redo,
bulk operations, migration; `src/lib/supabase.ts` is the CRUD client;
`src/app/api/cron/slack-notify/route.ts` is the digest endpoint).

Modelling conventions:
* ISO date strings (`deadline`, `originalDeadline`, the reconciliation
  pass's `today`) are abstracted as `Nat` day numbers: for well-formed ISO
  dates, `new Date(x) < new Date(y)` agrees with `x < y` on day numbers.
  Timestamps (`createdAt`, `completedAt`) are likewise `Nat`.
* TypeScript optional fields become `Option`; the JavaScript truthiness
  test `x || y` on an optional date or object becomes `Option.getD` /
  an explicit `match` (a present date string is never empty, so presence
  and truthiness coincide under the abstraction).
* `isOverdue?: boolean` is only ever read for truthiness (`undefined`
  behaves as `false` at every use site), so it is modelled as `Bool`.
* Array.prototype.sort with a consistent comparator is stable (ES2019),
  and a stable sort into a total preorder has a unique result, so the
  `.sort(cmp)` calls are modelled with `List.insertionSort`, which is
  stable.  The first `.sort` of the projection chain has a comparator
  that returns `0` for every pair unless the mode is `manual`, so for
  the non-manual modes it is the identity and is modelled as such.
  The `manual` branch itself is not modelled: its comparator is not a
  consistent order when some records lack `order`, so ECMAScript leaves
  the resulting order implementation-defined there.
-/

/-- `status` enum of a task record. -/
inductive ContactStatus where
  | pending
  | completed
deriving DecidableEq, Repr

/-- `priority` enum (`'A' | 'B' | 'C'`). -/
inductive ContactPriorityV where
  | A
  | B
  | C
deriving DecidableEq, Repr

/-- The `Contact` interface of `src/unnamed/part_004` (the feature-complete
page variant).  Dates/timestamps are abstracted as `Nat`, optional fields
as `Option`, and the optional boolean `isOverdue` as `Bool` (it is only
ever tested for truthiness). -/
structure Contact where
  id : String
  name : String
  purpose : String
  deadline : Nat
  status : ContactStatus
  category : String
  priority : Option ContactPriorityV
  customCategory : Option String
  createdAt : Nat
  completedAt : Option Nat
  recurring : Option String
  recurringDays : Option Nat
  recurringWeekday : Option Nat
  order : Option Nat
  isOverdue : Bool
  originalDeadline : Option Nat
deriving DecidableEq, Repr

instance : Inhabited Contact :=
  ⟨{ id := "", name := "", purpose := "", deadline := 0,
     status := ContactStatus.pending, category := "", priority := none,
     customCategory := none, createdAt := 0, completedAt := none,
     recurring := none, recurringDays := none, recurringWeekday := none,
     order := none, isOverdue := false, originalDeadline := none }⟩

/-- `checkAndFixOverdueContacts` (part_004 lines 110–129), with `today`
made an explicit parameter (in the source it is read from the clock).
For each record with `deadline < today` and `status === 'pending'` it
returns the spread-updated record; every other record is returned as is.
`contact.originalDeadline || contact.deadline` is `Option.getD` under the
date abstraction. -/
def checkAndFixOverdueContacts (today : Nat) (contacts : List Contact) :
    List Contact :=
  contacts.map fun contact =>
    if contact.deadline < today ∧ contact.status = ContactStatus.pending then
      { contact with
          originalDeadline := some (contact.originalDeadline.getD contact.deadline),
          deadline := today,
          isOverdue := true }
    else contact

/-- C1: the overdue pass rewrites exactly the pending, strictly-past-due
records (pinning `deadline` to today, setting `isOverdue`, filling
`originalDeadline` only when it was unset) and leaves every other record
untouched. -/
theorem checkAndFix_pointwise (today : Nat) (l : List Contact) (i : Nat)
    (h : i < l.length)
    (h2 : i < (checkAndFixOverdueContacts today l).length) :
    ((l.get ⟨i, h⟩).status = ContactStatus.pending →
      (l.get ⟨i, h⟩).deadline < today →
      (checkAndFixOverdueContacts today l).get ⟨i, h2⟩ =
        { l.get ⟨i, h⟩ with
            originalDeadline :=
              some ((l.get ⟨i, h⟩).originalDeadline.getD (l.get ⟨i, h⟩).deadline),
            deadline := today,
            isOverdue := true }) ∧
    (¬((l.get ⟨i, h⟩).deadline < today ∧
        (l.get ⟨i, h⟩).status = ContactStatus.pending) →
      (checkAndFixOverdueContacts today l).get ⟨i, h2⟩ = l.get ⟨i, h⟩) := by
  constructor
  · intro hp hd
    simp only [checkAndFixOverdueContacts, List.get_eq_getElem, List.getElem_map]
    rw [if_pos ⟨hd, hp⟩]
  · intro hn
    simp only [List.get_eq_getElem] at hn
    simp only [checkAndFixOverdueContacts, List.get_eq_getElem, List.getElem_map,
      if_neg hn]

/-- Witness for `checkAndFix_pointwise` at a concrete record. -/
theorem checkAndFix_pointwise_witness :
    (([{ (default : Contact) with id := "1", deadline := 3 }].get ⟨0, by decide⟩).status
        = ContactStatus.pending →
      ([{ (default : Contact) with id := "1", deadline := 3 }].get ⟨0, by decide⟩).deadline < 10 →
      (checkAndFixOverdueContacts 10
          [{ (default : Contact) with id := "1", deadline := 3 }]).get ⟨0, by decide⟩ =
        { [{ (default : Contact) with id := "1", deadline := 3 }].get ⟨0, by decide⟩ with
            originalDeadline :=
              some (([{ (default : Contact) with id := "1", deadline := 3 }].get
                ⟨0, by decide⟩).originalDeadline.getD
                  (([{ (default : Contact) with id := "1", deadline := 3 }].get
                    ⟨0, by decide⟩).deadline)),
            deadline := 10,
            isOverdue := true }) ∧
    (¬(([{ (default : Contact) with id := "1", deadline := 3 }].get ⟨0, by decide⟩).deadline < 10 ∧
        ([{ (default : Contact) with id := "1", deadline := 3 }].get ⟨0, by decide⟩).status
          = ContactStatus.pending) →
      (checkAndFixOverdueContacts 10
          [{ (default : Contact) with id := "1", deadline := 3 }]).get ⟨0, by decide⟩ =
        [{ (default : Contact) with id := "1", deadline := 3 }].get ⟨0, by decide⟩) :=
  checkAndFix_pointwise 10 [{ (default : Contact) with id := "1", deadline := 3 }] 0
    (by decide) (by decide)

/-- C2: the overdue pass is idempotent for a fixed `today`: a second run
over the output of the first changes nothing (in particular the
`isOverdue` / `originalDeadline` / `deadline` triples agree). -/
theorem checkAndFix_idempotent (today : Nat) (l : List Contact) :
    checkAndFixOverdueContacts today (checkAndFixOverdueContacts today l) =
      checkAndFixOverdueContacts today l := by
  simp only [checkAndFixOverdueContacts, List.map_map]
  apply List.map_congr_left
  intro c _
  by_cases hc : c.deadline < today ∧ c.status = ContactStatus.pending
  · have hnot : ¬(today < today ∧ c.status = ContactStatus.pending) := by
      rintro ⟨hlt, -⟩
      exact absurd hlt (lt_irrefl today)
    simp only [Function.comp_apply, if_pos hc, if_neg hnot]
  · simp only [Function.comp_apply, if_neg hc]

/-- `getPriorityValue` (part_004 lines 757–764): `A=1, B=2, C=3`, and an
absent priority falls through to the default arm, `3`. -/
def getPriorityValue (p : Option ContactPriorityV) : Nat :=
  match p with
  | some ContactPriorityV.A => 1
  | some ContactPriorityV.B => 2
  | some ContactPriorityV.C => 3
  | none => 3

/-- `getSortDate` (inline in `filteredAndSortedContacts`, part_004 lines
795–799): `contact.isOverdue && contact.originalDeadline ?
contact.originalDeadline : contact.deadline`. -/
def getSortDate (contact : Contact) : Nat :=
  match contact.isOverdue, contact.originalDeadline with
  | true, some d => d
  | true, none => contact.deadline
  | false, _ => contact.deadline

/-- JavaScript `hay.includes(needle)`: substring containment, modelled on
the character lists. -/
def jsIncludes (hay needle : String) : Bool :=
  hay.data.tails.any fun t => needle.data.isPrefixOf t

/-- Category filter of the projection (part_004 line 777):
`selectedCategory === 'all' || (contact.category || 'customer') ===
selectedCategory`. -/
def matchesCategory (selectedCategory : String) (contact : Contact) : Bool :=
  selectedCategory == "all" ||
    (if contact.category == "" then "customer" else contact.category) == selectedCategory

/-- Search filter of the projection (part_004 lines 780–782): empty query
matches everything, otherwise case-insensitive substring match over
`name` and `purpose`. -/
def matchesSearch (searchQuery : String) (contact : Contact) : Bool :=
  searchQuery == "" ||
    jsIncludes contact.name.toLower searchQuery.toLower ||
    jsIncludes contact.purpose.toLower searchQuery.toLower

/-- The filter stage of `filteredAndSortedContacts` (part_004 lines
775–784). -/
def projectionFilter (selectedCategory searchQuery : String)
    (contacts : List Contact) : List Contact :=
  contacts.filter fun contact =>
    matchesCategory selectedCategory contact && matchesSearch searchQuery contact

/-- Sort modes of part_004 other than `manual`.  The `manual` branch is
not modelled: its comparator (compare `order` only when both are defined,
else return 0) is not a consistent ordering when some records lack
`order`, so ECMAScript leaves that sort's result implementation-defined,
and no claim concerns it.  In the three modes below the first `.sort` of
the chain has a comparator that is constantly 0, hence (stable sort) is
the identity. -/
inductive SortMode where
  | auto
  | created
  | priority
deriving DecidableEq, Repr

/-- Total preorder implemented by the `auto` comparator (part_004 line
814): ascending `getSortDate`. -/
def autoLE (a b : Contact) : Prop := getSortDate a ≤ getSortDate b

/-- Total preorder implemented by the `created` comparator (part_004 line
791): descending `createdAt`. -/
def createdLE (a b : Contact) : Prop := b.createdAt ≤ a.createdAt

/-- Total preorder implemented by the `priority` comparator (part_004
lines 805–810): ascending priority rank, ties broken by ascending sort
date. -/
def priorityLE (a b : Contact) : Prop :=
  getPriorityValue a.priority < getPriorityValue b.priority ∨
    (getPriorityValue a.priority = getPriorityValue b.priority ∧
      getSortDate a ≤ getSortDate b)

instance : DecidableRel autoLE := fun a b =>
  inferInstanceAs (Decidable (getSortDate a ≤ getSortDate b))

instance : DecidableRel createdLE := fun a b =>
  inferInstanceAs (Decidable (b.createdAt ≤ a.createdAt))

instance : DecidableRel priorityLE := fun a b =>
  inferInstanceAs (Decidable (_ ∨ _))

instance : IsTotal Contact autoLE := ⟨fun a b => Nat.le_total _ _⟩

instance : IsTrans Contact autoLE := ⟨fun _ _ _ h1 h2 => Nat.le_trans h1 h2⟩

instance : IsTotal Contact createdLE := ⟨fun a b => (Nat.le_total _ _).symm⟩

instance : IsTrans Contact createdLE := ⟨fun _ _ _ h1 h2 => Nat.le_trans h2 h1⟩

instance : IsTotal Contact priorityLE := by
  refine ⟨fun a b => ?_⟩
  rcases Nat.lt_trichotomy (getPriorityValue a.priority) (getPriorityValue b.priority)
    with h | h | h
  · exact Or.inl (Or.inl h)
  · rcases Nat.le_total (getSortDate a) (getSortDate b) with hd | hd
    · exact Or.inl (Or.inr ⟨h, hd⟩)
    · exact Or.inr (Or.inr ⟨h.symm, hd⟩)
  · exact Or.inr (Or.inl h)

instance : IsTrans Contact priorityLE := by
  refine ⟨fun a b c hab hbc => ?_⟩
  rcases hab with h1 | ⟨h1, d1⟩
  · rcases hbc with h2 | ⟨h2, _⟩
    · exact Or.inl (Nat.lt_trans h1 h2)
    · exact Or.inl (h2 ▸ h1)
  · rcases hbc with h2 | ⟨h2, d2⟩
    · exact Or.inl (h1 ▸ h2)
    · exact Or.inr ⟨h1.trans h2, Nat.le_trans d1 d2⟩

/-- `filteredAndSortedContacts` (part_004 lines 767–815) for the modes
modelled: spread-copy, manual pre-sort (identity in these modes), filter,
then the mode's comparator via a stable sort. -/
def filteredAndSortedContacts (sortMode : SortMode)
    (selectedCategory searchQuery : String) (contacts : List Contact) :
    List Contact :=
  let filtered := projectionFilter selectedCategory searchQuery contacts
  match sortMode with
  | SortMode.auto => filtered.insertionSort autoLE
  | SortMode.created => filtered.insertionSort createdLE
  | SortMode.priority => filtered.insertionSort priorityLE

/-- First conjunct of claim C3's ordering: no completed record appears
before a pending record. -/
def completedAfterPending (l : List Contact) : Prop :=
  l.Pairwise fun a b =>
    ¬(a.status = ContactStatus.completed ∧ b.status = ContactStatus.pending)

/-- Second conjunct of claim C3's ordering: among pending records, the
ones due today come first. -/
def pendingTodayFirst (today : Nat) (l : List Contact) : Prop :=
  l.Pairwise fun a b =>
    a.status = ContactStatus.pending → b.status = ContactStatus.pending →
      b.deadline = today → a.deadline = today

/-- Third conjunct of claim C3's ordering: pending records not due today
appear in ascending order of sort date. -/
def pendingRestSorted (today : Nat) (l : List Contact) : Prop :=
  l.Pairwise fun a b =>
    a.status = ContactStatus.pending → b.status = ContactStatus.pending →
      a.deadline ≠ today → b.deadline ≠ today → getSortDate a ≤ getSortDate b

/-- Claim C3's asserted ordering of the `auto` projection, as stated. -/
def c3ClaimedOrdering (today : Nat) (l : List Contact) : Prop :=
  completedAfterPending l ∧ pendingTodayFirst today l ∧ pendingRestSorted today l

/-- A completed record due on day 1 (concrete test input). -/
def exDoneEarly : Contact :=
  { (default : Contact) with
      id := "1", deadline := 1, status := ContactStatus.completed }

/-- A pending record due on day 2 (concrete test input). -/
def exPendLate : Contact :=
  { (default : Contact) with
      id := "2", deadline := 2, status := ContactStatus.pending }

/-- C3 counterexample: in part_004's `auto` mode a completed record with
the earlier sort date stays in front of a pending record — the projection
does not move completed records after pending ones.  The input: a
completed record due day 1 and a pending record due day 2, no filters. -/
theorem c3_auto_counterexample :
    ¬ c3ClaimedOrdering 10
      (filteredAndSortedContacts SortMode.auto "all" ""
        [exDoneEarly, exPendLate]) := by
  rintro ⟨h1, -, -⟩
  have hout : filteredAndSortedContacts SortMode.auto "all" ""
      [exDoneEarly, exPendLate] = [exDoneEarly, exPendLate] := by decide
  rw [hout] at h1
  rcases List.pairwise_cons.mp h1 with ⟨hab, -⟩
  exact hab _ (List.mem_singleton.mpr rfl) ⟨rfl, rfl⟩

/-- C3 amended: in part_004's `auto` mode the projection is the filter
stage reordered ascending by sort date alone — completed records keep
their date-determined positions (they are not pushed after pending
records) and records due today get no special precedence. -/
theorem c3_amended_auto_sorts_by_sortDate (selectedCategory searchQuery : String)
    (contacts : List Contact) :
    (filteredAndSortedContacts SortMode.auto selectedCategory searchQuery
        contacts).Pairwise (fun a b => getSortDate a ≤ getSortDate b) ∧
      (filteredAndSortedContacts SortMode.auto selectedCategory searchQuery
        contacts).Perm
        (projectionFilter selectedCategory searchQuery contacts) := by
  constructor
  · exact List.sorted_insertionSort autoLE _
  · exact List.perm_insertionSort autoLE _

/-- C4: in `priority` mode the projection is the filter stage reordered
by ascending priority rank (`A=1`, `B=2`, `C=3`, absent priority ranking
exactly as `C`), ties broken by ascending sort date; the sort date is
`originalDeadline` when `isOverdue` is set and `deadline` otherwise. -/
theorem priority_mode_sorts_by_rank_then_sortDate
    (selectedCategory searchQuery : String) (contacts : List Contact)
    (d0 : Nat) (c : Contact) :
    (filteredAndSortedContacts SortMode.priority selectedCategory searchQuery
        contacts).Pairwise (fun a b =>
          getPriorityValue a.priority < getPriorityValue b.priority ∨
            (getPriorityValue a.priority = getPriorityValue b.priority ∧
              getSortDate a ≤ getSortDate b)) ∧
      (filteredAndSortedContacts SortMode.priority selectedCategory searchQuery
        contacts).Perm
        (projectionFilter selectedCategory searchQuery contacts) ∧
      getPriorityValue none = getPriorityValue (some ContactPriorityV.C) ∧
      getSortDate { c with isOverdue := true, originalDeadline := some d0 } = d0 ∧
      getSortDate { c with isOverdue := false } = c.deadline := by
  refine ⟨?_, ?_, rfl, rfl, ?_⟩
  · exact List.sorted_insertionSort priorityLE _
  · exact List.perm_insertionSort priorityLE _
  · simp [getSortDate]

/-- Canonical-list update of `toggleComplete` (part_004 lines 663–694):
find the record, derive the new status from it, then map the matching
id(s) to the new status / `completedAt`.  `now` stands for
`new Date().toISOString()`. -/
def toggleCompleteList (now : Nat) (id : String) (contacts : List Contact) :
    List Contact :=
  match contacts.find? (fun c => c.id == id) with
  | none => contacts
  | some contact =>
    let newStatus :=
      if contact.status = ContactStatus.pending then ContactStatus.completed
      else ContactStatus.pending
    let completedAt : Option Nat :=
      if newStatus = ContactStatus.completed then some now else none
    contacts.map fun c =>
      if c.id == id then
        if newStatus = ContactStatus.completed then
          { c with status := ContactStatus.completed, completedAt := completedAt }
        else
          { c with status := ContactStatus.pending, completedAt := none }
      else c

/-- Canonical-list update of `saveEdit` (part_004 lines 417–442):
validation guard (required fields), spread-update of the matching record
with `isOverdue: false, originalDeadline: undefined`, then the overdue
pass.  `editDeadline = none` models the empty date input. -/
def saveEdit (today : Nat) (id : String) (editName editPurpose : String)
    (editDeadline : Option Nat) (editCategory : String)
    (editPriorityV : ContactPriorityV) (contacts : List Contact) :
    List Contact :=
  if editName = "" ∨ editPurpose = "" ∨ editDeadline = none then contacts
  else
    let updatedContacts := contacts.map fun c =>
      if c.id == id then
        { c with
            name := editName, purpose := editPurpose,
            deadline := editDeadline.getD c.deadline,
            category := editCategory, priority := some editPriorityV,
            isOverdue := false, originalDeadline := none }
      else c
    checkAndFixOverdueContacts today updatedContacts

/-- The three kanban lanes of the drag-and-drop view. -/
inductive DropColumn where
  | overdue
  | today
  | future
deriving DecidableEq, Repr

/-- Canonical-list update of `handleDrop` (part_004 lines 864–922): no-op
without a dragged id or when the id is absent; dropping on `overdue` is a
deliberate no-op; `today`/`future` set the deadline to today / tomorrow,
clear `isOverdue`/`originalDeadline`, then re-run the overdue pass. -/
def handleDrop (todayDate : Nat) (targetColumn : DropColumn)
    (draggedContactId : Option String) (contacts : List Contact) :
    List Contact :=
  match draggedContactId with
  | none => contacts
  | some did =>
    match contacts.find? (fun c => c.id == did) with
    | none => contacts
    | some _ =>
      match targetColumn with
      | DropColumn.overdue => contacts
      | DropColumn.today =>
        checkAndFixOverdueContacts todayDate (contacts.map fun c =>
          if c.id == did then
            { c with
                deadline := todayDate, isOverdue := false,
                originalDeadline := none }
          else c)
      | DropColumn.future =>
        checkAndFixOverdueContacts todayDate (contacts.map fun c =>
          if c.id == did then
            { c with
                deadline := todayDate + 1, isOverdue := false,
                originalDeadline := none }
          else c)

/-- Canonical-list update of `bulkSetPriority` (part_004 lines 485–515):
no-op on an empty selection, otherwise set the priority of every selected
record. -/
def bulkSetPriority (newPriorityV : ContactPriorityV)
    (selectedIds : List String) (contacts : List Contact) : List Contact :=
  if selectedIds.isEmpty then contacts
  else
    contacts.map fun contact =>
      if selectedIds.contains contact.id then
        { contact with priority := some newPriorityV }
      else contact

/-- Canonical-list update of `bulkUpdateOverdueToToday` (part_004 lines
517–559): collect the overdue pending records; no-op when there are none
or the user declines the confirmation; otherwise pin each such record to
today and clear `isOverdue`/`originalDeadline`. -/
def bulkUpdateOverdueToToday (today : Nat) (confirmed : Bool)
    (contacts : List Contact) : List Contact :=
  if (contacts.filter fun c =>
        c.isOverdue && c.status == ContactStatus.pending).isEmpty ∨ ¬confirmed
  then contacts
  else
    contacts.map fun contact =>
      if contact.isOverdue && contact.status == ContactStatus.pending then
        { contact with
            deadline := today, isOverdue := false,
            originalDeadline := none }
      else contact

/-- The record invariant exactly as claim C7 states it. -/
def InvClaim (c : Contact) : Prop :=
  c.isOverdue = true →
    c.status = ContactStatus.pending ∧
      ∃ d0, c.originalDeadline = some d0 ∧ d0 < c.deadline

/-- The strengthened (inductive) overdue invariant: claim C7's implication
plus `originalDeadline` unset whenever `isOverdue` is cleared. -/
def OverdueInv (c : Contact) : Prop :=
  InvClaim c ∧ (c.isOverdue = false → c.originalDeadline = none)

/-- The date half of the invariant, without the status clause: what the
completion toggle actually preserves. -/
def OverdueDatesInv (c : Contact) : Prop :=
  (c.isOverdue = true → ∃ d0, c.originalDeadline = some d0 ∧ d0 < c.deadline) ∧
    (c.isOverdue = false → c.originalDeadline = none)

instance decOrigBefore (c : Contact) :
    Decidable (∃ d0, c.originalDeadline = some d0 ∧ d0 < c.deadline) :=
  match h : c.originalDeadline with
  | some d =>
    if hd : d < c.deadline then isTrue ⟨d, rfl, hd⟩
    else
      isFalse (by
        rintro ⟨d0, heq, hlt⟩
        cases heq
        exact hd hlt)
  | none =>
    isFalse (by
      rintro ⟨d0, heq, -⟩
      exact Option.noConfusion heq)

instance (c : Contact) : Decidable (InvClaim c) := by
  unfold InvClaim
  infer_instance

instance (c : Contact) : Decidable (OverdueInv c) := by
  unfold OverdueInv
  infer_instance

instance (c : Contact) : Decidable (OverdueDatesInv c) := by
  unfold OverdueDatesInv
  infer_instance

/-- A record whose overdue flag and original deadline were just cleared
satisfies the strengthened invariant. -/
theorem overdueInv_of_cleared {c : Contact} (h1 : c.isOverdue = false)
    (h2 : c.originalDeadline = none) : OverdueInv c := by
  refine ⟨?_, fun _ => h2⟩
  intro hT
  rw [h1] at hT
  cases hT

/-- The overdue pass preserves the strengthened invariant elementwise. -/
theorem overdueInv_checkAndFix {today : Nat} {l : List Contact}
    (hInv : ∀ c ∈ l, OverdueInv c) :
    ∀ c ∈ checkAndFixOverdueContacts today l, OverdueInv c := by
  intro c' hc'
  simp only [checkAndFixOverdueContacts, List.mem_map] at hc'
  rcases hc' with ⟨c, hcl, rfl⟩
  have hc := hInv c hcl
  by_cases hcond : c.deadline < today ∧ c.status = ContactStatus.pending
  · rw [if_pos hcond]
    constructor
    · intro _
      refine ⟨hcond.2, c.originalDeadline.getD c.deadline, rfl, ?_⟩
      cases hod : c.originalDeadline with
      | none => simpa [hod] using hcond.1
      | some d0 =>
        simp only [hod, Option.getD_some]
        cases hov : c.isOverdue with
        | true =>
          rcases (hc.1 hov).2 with ⟨d1, hd1, hlt⟩
          rw [hod] at hd1
          cases hd1
          exact hlt.trans hcond.1
        | false =>
          have h2 := hc.2 hov
          rw [hod] at h2
          exact Option.noConfusion h2
    · intro hF
      simp at hF
  · rw [if_neg hcond]
    exact hc

/-- Mapping a per-record update that either clears the overdue fields or
leaves the record alone preserves the strengthened invariant. -/
theorem overdueInv_map_clearing {l : List Contact} {f : Contact → Contact}
    (hInv : ∀ c ∈ l, OverdueInv c)
    (hf : ∀ c, f c = c ∨ ((f c).isOverdue = false ∧ (f c).originalDeadline = none)) :
    ∀ c ∈ l.map f, OverdueInv c := by
  intro c' hc'
  rcases List.mem_map.mp hc' with ⟨c, hcl, rfl⟩
  rcases hf c with heq | ⟨h1, h2⟩
  · rw [heq]
    exact hInv c hcl
  · exact overdueInv_of_cleared h1 h2

/-- C7 amended: with the invariant strengthened to an inductive one
(`originalDeadline` is unset whenever `isOverdue` is false), the overdue
pass, edit save, drag-and-drop, bulk priority assignment and bulk
overdue-to-today update all preserve it; the completion toggle preserves
only its date half — it does not clear `isOverdue` on completion, so the
status clause can be violated (see the counterexample). -/
theorem overdueInv_preserved (today now : Nat) (id : String)
    (editName editPurpose : String) (editDeadline : Option Nat)
    (editCategory : String) (editPriorityV : ContactPriorityV)
    (targetColumn : DropColumn) (draggedContactId : Option String)
    (selectedIds : List String) (confirmed : Bool) (l : List Contact)
    (hInv : ∀ c ∈ l, OverdueInv c) :
    (∀ c ∈ checkAndFixOverdueContacts today l, OverdueInv c) ∧
    (∀ c ∈ saveEdit today id editName editPurpose editDeadline editCategory
        editPriorityV l, OverdueInv c) ∧
    (∀ c ∈ handleDrop today targetColumn draggedContactId l, OverdueInv c) ∧
    (∀ c ∈ bulkSetPriority editPriorityV selectedIds l, OverdueInv c) ∧
    (∀ c ∈ bulkUpdateOverdueToToday today confirmed l, OverdueInv c) ∧
    (∀ c ∈ toggleCompleteList now id l, OverdueDatesInv c) := by
  refine ⟨overdueInv_checkAndFix hInv, ?_, ?_, ?_, ?_, ?_⟩
  · unfold saveEdit
    split
    · exact hInv
    · refine overdueInv_checkAndFix (overdueInv_map_clearing hInv ?_)
      intro c
      by_cases hid : c.id == id
      · right
        simp [hid]
      · left
        simp [hid]
  · unfold handleDrop
    split
    · exact hInv
    · rename_i did
      split
      · exact hInv
      · split
        · exact hInv
        · refine overdueInv_checkAndFix (overdueInv_map_clearing hInv ?_)
          intro c
          by_cases hid : c.id == did
          · right
            simp [hid]
          · left
            simp [hid]
        · refine overdueInv_checkAndFix (overdueInv_map_clearing hInv ?_)
          intro c
          by_cases hid : c.id == did
          · right
            simp [hid]
          · left
            simp [hid]
  · unfold bulkSetPriority
    split
    · exact hInv
    · intro c' hc'
      rcases List.mem_map.mp hc' with ⟨c, hcl, rfl⟩
      have hc := hInv c hcl
      by_cases hsel : selectedIds.contains c.id
      · rw [if_pos hsel]
        exact hc
      · rw [if_neg hsel]
        exact hc
  · unfold bulkUpdateOverdueToToday
    split
    · exact hInv
    · refine overdueInv_map_clearing hInv ?_
      intro c
      by_cases hcond : c.isOverdue && c.status == ContactStatus.pending
      · right
        simp [hcond]
      · left
        simp [hcond]
  · unfold toggleCompleteList
    split
    · intro c' hc'
      have hc := hInv c' hc'
      exact ⟨fun hT => (hc.1 hT).2, hc.2⟩
    · intro c' hc'
      simp only [List.mem_map] at hc'
      rcases hc' with ⟨c, hcl, rfl⟩
      have hc := hInv c hcl
      by_cases hid : c.id == id
      · rw [if_pos hid]
        split
        · exact ⟨fun hT => (hc.1 hT).2, hc.2⟩
        · exact ⟨fun hT => (hc.1 hT).2, hc.2⟩
      · rw [if_neg hid]
        exact ⟨fun hT => (hc.1 hT).2, hc.2⟩

/-- An overdue pending record satisfying the claimed invariant
(`originalDeadline = 1 < deadline = 5`). -/
def exOverduePending : Contact :=
  { (default : Contact) with
      id := "1", deadline := 5, status := ContactStatus.pending,
      isOverdue := true, originalDeadline := some 1 }

/-- A record satisfying the claimed invariant vacuously (`isOverdue =
false`) but carrying a stale future `originalDeadline`. -/
def exStaleOriginal : Contact :=
  { (default : Contact) with
      id := "2", deadline := 5, status := ContactStatus.pending,
      isOverdue := false, originalDeadline := some 50 }

/-- C7 counterexample: the invariant exactly as claimed is not preserved.
(1) Completing an overdue record keeps `isOverdue = true` on a now
completed record, violating the status clause; (2) the overdue pass run
on day 10 over a record with a stale `originalDeadline = 50` (allowed by
the claimed invariant, which says nothing when `isOverdue` is false)
produces `isOverdue = true` with `originalDeadline = 50 ≥ deadline = 10`,
violating the date clause. -/
theorem invClaim_not_preserved :
    (InvClaim exOverduePending ∧
      ¬ (∀ c ∈ toggleCompleteList 100 "1" [exOverduePending], InvClaim c)) ∧
    (InvClaim exStaleOriginal ∧
      ¬ (∀ c ∈ checkAndFixOverdueContacts 10 [exStaleOriginal], InvClaim c)) := by
  decide

/-- Witness for `overdueInv_preserved` on a concrete record list. -/
theorem overdueInv_preserved_witness :
    (∀ c ∈ checkAndFixOverdueContacts 10 [exPendLate], OverdueInv c) ∧
    (∀ c ∈ saveEdit 10 "2" "n" "p" (some 3) "customer"
        ContactPriorityV.A [exPendLate], OverdueInv c) ∧
    (∀ c ∈ handleDrop 10 DropColumn.today (some "2") [exPendLate],
        OverdueInv c) ∧
    (∀ c ∈ bulkSetPriority ContactPriorityV.A ["2"] [exPendLate],
        OverdueInv c) ∧
    (∀ c ∈ bulkUpdateOverdueToToday 10 true [exPendLate], OverdueInv c) ∧
    (∀ c ∈ toggleCompleteList 100 "2" [exPendLate], OverdueDatesInv c) :=
  overdueInv_preserved 10 100 "2" "n" "p" (some 3) "customer"
    ContactPriorityV.A DropColumn.today (some "2") ["2"] true [exPendLate]
    (by decide)

/-- The page component's state relevant to undo/redo: the canonical list,
the history stack of snapshots, and the cursor (`useState` initial values
`[]` and `-1`). -/
structure AppState where
  contacts : List Contact
  history : List (List Contact)
  historyIndex : Int
deriving DecidableEq, Repr

/-- `saveToHistory` (part_004 lines 132–138): truncate the stack after
the cursor, push a copy of the given list, point the cursor at it. -/
def saveToHistory (newContacts : List Contact) (s : AppState) : AppState :=
  let newHistory := s.history.take (s.historyIndex + 1).toNat ++ [newContacts]
  { s with
      history := newHistory,
      historyIndex := (newHistory.length : Int) - 1 }

/-- `toggleComplete` (part_004 lines 663–694) as a state transition:
return unchanged when the id is absent, otherwise record the pre-toggle
snapshot via `saveToHistory` and apply the canonical-list update.  (The
awaited store call is discarded by the source and does not influence the
state.) -/
def toggleComplete (now : Nat) (id : String) (s : AppState) : AppState :=
  match s.contacts.find? (fun c => c.id == id) with
  | none => s
  | some _ =>
    let s1 := saveToHistory s.contacts s
    { s1 with contacts := toggleCompleteList now id s.contacts }

/-- `undo` (part_004 lines 141–147): only when the cursor is positive,
replace the canonical list with the snapshot one position back and move
the cursor back. -/
def undo (s : AppState) : AppState :=
  if 0 < s.historyIndex then
    { s with
        contacts := s.history.getD (s.historyIndex - 1).toNat [],
        historyIndex := s.historyIndex - 1 }
  else s

/-- `redo` (part_004 lines 150–156): only when the cursor is before the
last snapshot, replace the canonical list with the next snapshot and move
the cursor forward. -/
def redo (s : AppState) : AppState :=
  if s.historyIndex < (s.history.length : Int) - 1 then
    { s with
        contacts := s.history.getD (s.historyIndex + 1).toNat [],
        historyIndex := s.historyIndex + 1 }
  else s

/-- Initial app state holding exactly the records `l`. -/
def initialState (l : List Contact) : AppState :=
  { contacts := l, history := [], historyIndex := -1 }

/-- C5 evaluation: toggling the pending record `exPendLate` to completed
and then invoking undo does NOT restore the pre-toggle snapshot.  From
the initial state, `saveToHistory` leaves the cursor at 0, the `undo`
guard `historyIndex > 0` fails, and the record stays completed.  After a
second covered mutation, undo restores the snapshot taken before the
FIRST mutation, not the pre-toggle one. -/
theorem toggle_then_undo_eval :
    ((undo (toggleComplete 100 "2" (initialState [exPendLate]))).contacts =
        [{ exPendLate with
            status := ContactStatus.completed, completedAt := some 100 }] ∧
      (undo (toggleComplete 100 "2" (initialState [exPendLate]))).contacts ≠
        [exPendLate]) ∧
    ((undo (toggleComplete 200 "2"
          (toggleComplete 100 "2" (initialState [exPendLate])))).contacts =
        [exPendLate] ∧
      (toggleComplete 100 "2" (initialState [exPendLate])).contacts =
        [{ exPendLate with
            status := ContactStatus.completed, completedAt := some 100 }] ∧
      (undo (toggleComplete 200 "2"
          (toggleComplete 100 "2" (initialState [exPendLate])))).contacts ≠
        (toggleComplete 100 "2" (initialState [exPendLate])).contacts) := by
  decide

/-- The `DbContact` row shape of `src/lib/supabase.ts` (snake-case
columns; `completed_at` is `string | null`, both absences modelled as
`none`). -/
structure DbContact where
  id : Option String
  name : String
  purpose : String
  deadline : Nat
  status : ContactStatus
  category : Option String
  priority : Option ContactPriorityV
  recurring : Option String
  recurring_days : Option Nat
  recurring_weekday : Option Nat
  order : Option Nat
  created_at : Option Nat
  completed_at : Option Nat
  user_id : Option String
deriving DecidableEq, Repr

/-- Ascending-deadline preorder used by `contactsApi.getAll`'s
`.order('deadline', ascending: true)`. -/
def dbDeadlineLE (a b : DbContact) : Prop := a.deadline ≤ b.deadline

instance : DecidableRel dbDeadlineLE := fun a b =>
  inferInstanceAs (Decidable (a.deadline ≤ b.deadline))

instance : IsTotal DbContact dbDeadlineLE := ⟨fun a b => Nat.le_total _ _⟩

instance : IsTrans DbContact dbDeadlineLE :=
  ⟨fun _ _ _ h1 h2 => Nat.le_trans h1 h2⟩

/-- `contactsApi.getAll(userId)` with a (truthy) user id: rows with
`user_id = userId`, ordered by deadline ascending. -/
def getAllByUser (userId : String) (remote : List DbContact) :
    List DbContact :=
  (remote.filter fun r => r.user_id == some userId).insertionSort dbDeadlineLE

/-- `contactsApi.getAll(undefined)`: rows with `user_id IS NULL`, ordered
by deadline ascending. -/
def getAllOwnerless (remote : List DbContact) : List DbContact :=
  (remote.filter fun r => r.user_id == none).insertionSort dbDeadlineLE

/-- JavaScript `a || b` over two optional parsed payloads (a parsed
non-null object is truthy). -/
def jsOrOpt {α : Type} (a b : Option α) : Option α :=
  match a with
  | some x => some x
  | none => b

/-- The parsed shape of a local-storage record as the migration loop
reads it (fields it accesses, with the defaults it applies on absence). -/
structure LocalContact where
  name : String
  purpose : String
  deadline : Nat
  status : Option ContactStatus
  category : Option String
  recurring : Option String
  recurringDays : Option Nat
  recurringWeekday : Option Nat
  order : Option Nat
deriving DecidableEq, Repr

/-- JavaScript `s || d` for an optional string field (absent and empty
both fall back). -/
def jsOrStr (o : Option String) (d : String) : String :=
  match o with
  | some s => if s = "" then d else s
  | none => d

/-- The row `contactsApi.create` receives for one migrated local record
(part_004 lines 209–221): carried-over fields plus the owner stamp; the
server-assigned `id`/`created_at` are modelled as absent. -/
def localContactToDb (uid : String) (lc : LocalContact) : DbContact :=
  { id := none,
    name := lc.name,
    purpose := lc.purpose,
    deadline := lc.deadline,
    status := lc.status.getD ContactStatus.pending,
    category := some (jsOrStr lc.category "customer"),
    priority := none,
    recurring := lc.recurring,
    recurring_days := lc.recurringDays,
    recurring_weekday := lc.recurringWeekday,
    order := some (lc.order.getD 0),
    created_at := none,
    completed_at := none,
    user_id := some uid }

/-- The `dbContact → Contact` formatting used on every load path
(part_004 lines 175–187 etc.): defaults for category/priority, fields
not mapped (recurringDays, recurringWeekday, order, customCategory,
isOverdue, originalDeadline) left at their absent values. -/
def formatDbContact (dbContact : DbContact) : Contact :=
  { id := dbContact.id.getD "",
    name := dbContact.name,
    purpose := dbContact.purpose,
    deadline := dbContact.deadline,
    status := dbContact.status,
    category := jsOrStr dbContact.category "customer",
    priority := some (dbContact.priority.getD ContactPriorityV.C),
    customCategory := none,
    createdAt := dbContact.created_at.getD 0,
    completedAt := dbContact.completed_at,
    recurring := dbContact.recurring,
    recurringDays := none,
    recurringWeekday := none,
    order := none,
    isOverdue := false,
    originalDeadline := none }

/-- The ownership-assignment loop (part_004 lines 168–173): one
`contactsApi.update(id, {user_id})` per legacy record with a truthy id. -/
def assignOwnership (uid : String) (legacy : List DbContact)
    (remote : List DbContact) : List DbContact :=
  legacy.foldl
    (fun rem contact =>
      match contact.id with
      | some cid =>
        if cid ≠ "" then
          rem.map fun r =>
            if r.id == some cid then { r with user_id := some uid } else r
        else rem
      | none => rem)
    remote

/-- The migration loop (part_004 lines 209–221): one `contactsApi.create`
per local record, appended to the remote table. -/
def migrateLocal (uid : String) (localList : List LocalContact)
    (remote : List DbContact) : List DbContact :=
  localList.foldl (fun rem lc => rem ++ [localContactToDb uid lc]) remote

/-- Outcome of one run of `loadContacts` in database mode: the remote
table after the run, the canonical list that was set, and the two
local-storage keys after the run. -/
structure LoadResult where
  remote : List DbContact
  contacts : List Contact
  localContactsKey : Option (List LocalContact)
  localAgentKey : Option (List LocalContact)
deriving DecidableEq, Repr

/-- `loadContacts` (part_004 lines 157–301), database branch
(`useDatabase && user`), with the clock date and the two local-storage
keys (`'contacts'`, `'agent-details'`) as explicit inputs.  Branch order
as in the source: ownership assignment when ownerless rows exist, local
migration when a local payload exists and the fetched set is empty,
otherwise the plain read. -/
def loadContacts (uid : String) (today : Nat)
    (localContactsKey localAgentKey : Option (List LocalContact))
    (remote : List DbContact) : LoadResult :=
  let userContacts := getAllByUser uid remote
  let legacyContacts := getAllOwnerless remote
  let dbContacts := userContacts ++ legacyContacts
  if 0 < legacyContacts.length then
    let remote2 := assignOwnership uid legacyContacts remote
    let updatedContacts := getAllByUser uid remote2
    { remote := remote2,
      contacts :=
        checkAndFixOverdueContacts today (updatedContacts.map formatDbContact),
      localContactsKey := localContactsKey,
      localAgentKey := localAgentKey }
  else
    match jsOrOpt localContactsKey localAgentKey with
    | some localList =>
      if dbContacts.length = 0 then
        let remote2 := migrateLocal uid localList remote
        let migratedContacts := getAllByUser uid remote2
        { remote := remote2,
          contacts :=
            checkAndFixOverdueContacts today
              (migratedContacts.map formatDbContact),
          localContactsKey := none,
          localAgentKey := none }
      else
        { remote := remote,
          contacts :=
            checkAndFixOverdueContacts today (dbContacts.map formatDbContact),
          localContactsKey := localContactsKey,
          localAgentKey := localAgentKey }
    | none =>
      { remote := remote,
        contacts :=
          checkAndFixOverdueContacts today (dbContacts.map formatDbContact),
        localContactsKey := localContactsKey,
        localAgentKey := localAgentKey }

/-- C6: when the remote table already holds at least one record owned by
the current user and no ownerless records, a load with a non-empty local
payload performs no remote write (no ownership assignment, no migration)
and leaves the local keys alone; hence a second identical load leaves the
remote table at the same N records as well. -/
theorem loadContacts_second_run_noop (uid : String) (today : Nat)
    (localList : List LocalContact)
    (localAgentKey : Option (List LocalContact)) (remote : List DbContact)
    (hM : 1 ≤ localList.length)
    (hN : 1 ≤ (remote.filter fun r => r.user_id == some uid).length)
    (hNoLegacy : remote.filter (fun r => r.user_id == none) = []) :
    (loadContacts uid today (some localList) localAgentKey remote).remote =
        remote ∧
    (loadContacts uid today (some localList) localAgentKey
        remote).localContactsKey = some localList ∧
    (loadContacts uid today (some localList) localAgentKey
        remote).localAgentKey = localAgentKey ∧
    (loadContacts uid today (some localList) localAgentKey
        (loadContacts uid today (some localList) localAgentKey
          remote).remote).remote = remote := by
  have hleg : getAllOwnerless remote = [] := by
    unfold getAllOwnerless
    rw [hNoLegacy]
    rfl
  have hlen : ¬ (getAllByUser uid remote).length = 0 := by
    unfold getAllByUser
    rw [List.length_insertionSort]
    omega
  simp only [loadContacts, hleg, List.append_nil, List.length_nil,
    lt_self_iff_false, if_false, jsOrOpt, hlen, if_neg hlen]
  exact ⟨trivial, trivial, trivial, trivial⟩

/-- A concrete local-storage record (for witnesses). -/
def exLocalContact : LocalContact :=
  { name := "l", purpose := "p", deadline := 1, status := none,
    category := none, recurring := none, recurringDays := none,
    recurringWeekday := none, order := none }

/-- A concrete remote row owned by user `"u"` (for witnesses). -/
def exDbOwned : DbContact :=
  { id := some "d1", name := "n", purpose := "p", deadline := 2,
    status := ContactStatus.pending, category := none, priority := none,
    recurring := none, recurring_days := none, recurring_weekday := none,
    order := none, created_at := none, completed_at := none,
    user_id := some "u" }

/-- Witness for `loadContacts_second_run_noop`: one owned remote row, one
local record, no ownerless rows. -/
theorem loadContacts_second_run_noop_witness :
    (loadContacts "u" 0 (some [exLocalContact]) none [exDbOwned]).remote =
        [exDbOwned] ∧
    (loadContacts "u" 0 (some [exLocalContact]) none
        [exDbOwned]).localContactsKey = some [exLocalContact] ∧
    (loadContacts "u" 0 (some [exLocalContact]) none
        [exDbOwned]).localAgentKey = none ∧
    (loadContacts "u" 0 (some [exLocalContact]) none
        (loadContacts "u" 0 (some [exLocalContact]) none
          [exDbOwned]).remote).remote = [exDbOwned] :=
  loadContacts_second_run_noop "u" 0 [exLocalContact] none [exDbOwned]
    (by decide) (by decide) (by decide)

/-- `saveEdit` including the awaited `contactsApi.update` call: the
source discards the awaited result (`null` on failure), so the
canonical-list outcome is computed from the local arguments only. -/
def saveEditWithStore (storeResp : Option DbContact) (today : Nat)
    (id : String) (editName editPurpose : String) (editDeadline : Option Nat)
    (editCategory : String) (editPriorityV : ContactPriorityV)
    (contacts : List Contact) : List Contact :=
  saveEdit today id editName editPurpose editDeadline editCategory
    editPriorityV contacts

/-- `toggleComplete`'s canonical-list update including the awaited
`contactsApi.update` call, whose result (`null` on failure) the source
discards. -/
def toggleCompleteWithStore (storeResp : Option DbContact) (now : Nat)
    (id : String) (contacts : List Contact) : List Contact :=
  toggleCompleteList now id contacts

/-- `bulkSetPriority` including the awaited per-id `contactsApi.update`
calls, whose results (`null` on failure) the source discards. -/
def bulkSetPriorityWithStore (storeResps : List (Option DbContact))
    (newPriorityV : ContactPriorityV) (selectedIds : List String)
    (contacts : List Contact) : List Contact :=
  bulkSetPriority newPriorityV selectedIds contacts

/-- `bulkUpdateOverdueToToday` including the awaited per-record
`contactsApi.update` calls, whose results the source discards. -/
def bulkUpdateOverdueToTodayWithStore (storeResps : List (Option DbContact))
    (today : Nat) (confirmed : Bool) (contacts : List Contact) :
    List Contact :=
  bulkUpdateOverdueToToday today confirmed contacts

/-- C8 counterexample: with the store signalling failure (`null` /
all-`null` responses), each of the four mutations still changes the
canonical in-memory list — the operations are not no-ops on store
failure. -/
theorem store_failure_still_mutates :
    saveEditWithStore none 10 "2" "newname" "newpurpose" (some 3) "customer"
        ContactPriorityV.A [exPendLate] ≠ [exPendLate] ∧
    toggleCompleteWithStore none 100 "2" [exPendLate] ≠ [exPendLate] ∧
    bulkSetPriorityWithStore [none] ContactPriorityV.A ["1"]
        [exOverduePending] ≠ [exOverduePending] ∧
    bulkUpdateOverdueToTodayWithStore [none] 10 true [exOverduePending] ≠
      [exOverduePending] := by
  decide

/-- C8 amended: the store responses do not influence the canonical-list
outcome at all — each mutation applies the same local update whether the
store calls succeed or fail (the sentinel results are discarded). -/
theorem store_result_ignored (resp resp2 : Option DbContact)
    (resps resps2 : List (Option DbContact)) (today now : Nat) (id : String)
    (editName editPurpose : String) (editDeadline : Option Nat)
    (editCategory : String) (editPriorityV : ContactPriorityV)
    (selectedIds : List String) (confirmed : Bool) (contacts : List Contact) :
    saveEditWithStore resp today id editName editPurpose editDeadline
        editCategory editPriorityV contacts =
      saveEditWithStore resp2 today id editName editPurpose editDeadline
        editCategory editPriorityV contacts ∧
    toggleCompleteWithStore resp now id contacts =
      toggleCompleteWithStore resp2 now id contacts ∧
    bulkSetPriorityWithStore resps editPriorityV selectedIds contacts =
      bulkSetPriorityWithStore resps2 editPriorityV selectedIds contacts ∧
    bulkUpdateOverdueToTodayWithStore resps today confirmed contacts =
      bulkUpdateOverdueToTodayWithStore resps2 today confirmed contacts :=
  ⟨rfl, rfl, rfl, rfl⟩

/-- The environment inputs of the digest endpoint's auth gate. -/
inductive CronOutcome where
  | unauthorized
  | proceedsToQuery
deriving DecidableEq, Repr

/-- The template literal `` `Bearer ${process.env.CRON_SECRET}` ``:
JavaScript stringifies an absent variable as `"undefined"`. -/
def bearerExpected (cronSecret : Option String) : String :=
  "Bearer " ++
    (match cronSecret with
     | some s => s
     | none => "undefined")

/-- JavaScript truthiness of an optional environment string (absent and
empty are falsy). -/
def jsTruthyStr (o : Option String) : Bool :=
  match o with
  | some s => s != ""
  | none => false

/-- The auth gate of the digest endpoint (`route.ts` lines 12–20): on a
header mismatch, return 401 only in production with a truthy
`CRON_SECRET`; in every other case fall through to the store query. -/
def cronGate (authHeader nodeEnv cronSecret : Option String) : CronOutcome :=
  if authHeader != some (bearerExpected cronSecret) then
    if nodeEnv == some "production" && jsTruthyStr cronSecret then
      CronOutcome.unauthorized
    else CronOutcome.proceedsToQuery
  else CronOutcome.proceedsToQuery

/-- C9: the endpoint answers 401 exactly when the secret is configured
(present and non-empty), the environment is production, and the
authorization header differs from `Bearer <secret>`; in every other case
it proceeds to query the store. -/
theorem cron_unauthorized_iff (authHeader nodeEnv cronSecret : Option String) :
    cronGate authHeader nodeEnv cronSecret = CronOutcome.unauthorized ↔
      ((∃ s, cronSecret = some s ∧ s ≠ "" ∧
          authHeader ≠ some ("Bearer " ++ s)) ∧
        nodeEnv = some "production") := by
  unfold cronGate bearerExpected jsTruthyStr
  cases cronSecret with
  | none =>
    simp only [Bool.and_false]
    constructor
    · intro h
      split at h
      · simp at h
      · simp at h
    · rintro ⟨⟨s, hs, -, -⟩, -⟩
      exact Option.noConfusion hs
  | some s =>
    by_cases hs : s = ""
    · subst hs
      simp only [bne_self_eq_false, Bool.and_false]
      constructor
      · intro h
        split at h
        · simp at h
        · simp at h
      · rintro ⟨⟨s2, hs2, hne, -⟩, -⟩
        cases hs2
        exact absurd rfl hne
    · constructor
      · intro h
        split at h
        · rename_i hmis
          split at h
          · rename_i hcond
            simp only [Bool.and_eq_true, beq_iff_eq, bne_iff_ne, ne_eq] at hcond
            refine ⟨⟨s, rfl, hs, ?_⟩, hcond.1⟩
            simpa using hmis
          · simp at h
        · simp at h
      · rintro ⟨⟨s2, hs2, -, hne⟩, henv⟩
        cases hs2
        rw [if_pos, if_pos]
        · simp [henv, hs]
        · simpa using hne

/-- The persist effect (part_004 lines 400–404): in local-storage mode
the `'contacts'` key is overwritten only when the canonical list is
non-empty; otherwise the stored payload is left as is. -/
def persistLocalStorage (useDatabase : Bool) (contacts : List Contact)
    (storedContacts : Option (List Contact)) : Option (List Contact) :=
  if ¬useDatabase ∧ 0 < contacts.length then some contacts
  else storedContacts

/-- Canonical-list update of `deleteContact` (part_004 lines 455–462):
no-op when the confirmation is declined, otherwise filter the id out. -/
def deleteContact (confirmed : Bool) (id : String)
    (contacts : List Contact) : List Contact :=
  if confirmed then contacts.filter fun c => c.id != id
  else contacts

/-- The local-storage branch of `loadContacts` (part_004 lines 276–290):
read `'contacts'`, falling back to `'agent-details'`; when a payload
exists, default each record's category and run the overdue pass; when
none exists the canonical list is left untouched (`none`). -/
def loadContactsLocal (today : Nat)
    (storedContacts storedAgent : Option (List Contact)) :
    Option (List Contact) :=
  match jsOrOpt storedContacts storedAgent with
  | some parsed =>
    some (checkAndFixOverdueContacts today
      (parsed.map fun contact =>
        { contact with
            category :=
              if contact.category = "" then "customer" else contact.category }))
  | none => none

/-- C10: in local-storage mode the persist effect skips empty lists, so
deleting the last remaining record leaves the previously stored payload
intact, and the next load resurrects a record with the deleted record's
id. -/
theorem empty_list_not_persisted_and_deleted_record_returns
    (today : Nat) (r : Contact) (st storedAgent : Option (List Contact)) :
    deleteContact true r.id [r] = [] ∧
    persistLocalStorage false [] st = st ∧
    persistLocalStorage false (deleteContact true r.id [r]) (some [r]) =
      some [r] ∧
    ((loadContactsLocal today (some [r]) storedAgent).getD []).map
        Contact.id = [r.id] := by
  have hdel : deleteContact true r.id [r] = [] := by
    simp [deleteContact]
  refine ⟨hdel, by simp [persistLocalStorage], ?_, ?_⟩
  · rw [hdel]
    simp [persistLocalStorage]
  · unfold loadContactsLocal jsOrOpt checkAndFixOverdueContacts
    by_cases hfix : r.deadline < today ∧ r.status = ContactStatus.pending
    · simp [hfix]
    · simp [hfix]
